import Mathlib

/-!
Verification of the 6502 emulator core (`src/src`): a shallow embedding of
the memory, register file, flag logic, addressing-mode resolver and the
instruction handlers, followed by theorems about the spec's claims.

Machine integers are modelled as `Nat` with explicit `% 256` / `% 65536`
at exactly the places the Rust types force a wrap (`u8` / `u16`
wrapping arithmetic and `as` casts).  State-mutating Rust methods become
state-passing functions returning `value × state`.
-/

namespace Emu6502

/- Rust `util/types.rs` declares `Byte = u8`, `Word = u16`, `Address = u16`;
all three are modelled as `Nat` (kept as plain `Nat` in every signature so
that arithmetic automation sees through them), with the 8/16-bit wraps made
explicit below. -/

/-- `util/constants.rs`: size of the memory. -/
def MEMORY_SIZE : Nat := 0x10000

/-- `util/constants.rs`: size of the stack. -/
def STACK_SIZE : Nat := 0x100

/-- `util/constants.rs`: `OPCODE_KIL`. -/
def OPCODE_KIL : String := "KIL"

/-- `u8::wrapping_add` (also `+` on `u8`, which wraps in release builds). -/
def wadd8 (x y : Nat) : Nat := (x + y) % 256

/-- `u8::wrapping_sub`. -/
def wsub8 (x y : Nat) : Nat := (x % 256 + 256 - y % 256) % 256

/-- `u16::wrapping_add` (also `+` on `u16`, which wraps in release builds). -/
def wadd16 (x y : Nat) : Nat := (x + y) % 65536

/-- `cpu/flag.rs`: the status-register flags and their bit masks. -/
inductive Flag where
  | Carry | Zero | Interrupt | Decimal | Break | Unused | Overflow | Negative
deriving DecidableEq

/-- The discriminant value of each `Flag` (`flag as Byte` in Rust). -/
def Flag.toByte : Flag → Nat
  | .Carry => 0x01
  | .Zero => 0x02
  | .Interrupt => 0x04
  | .Decimal => 0x08
  | .Break => 0x10
  | .Unused => 0x20
  | .Overflow => 0x40
  | .Negative => 0x80

/-- `memory/ram.rs`: `Ram` is a 64KB array of bytes; modelled as a function,
with the `u16` index type and `u8` element type encoded by the masks in
`Ram.read` / `Ram.write`. -/
structure Ram where
  memory : Nat → Nat

/-- `Ram::read`: `self.memory[address as usize]`. -/
def Ram.read (r : Ram) (address : Nat) : Nat :=
  r.memory (address % 65536) % 256

/-- `Ram::write`: `self.memory[address as usize] = data`. -/
def Ram.write (r : Ram) (address : Nat) (data : Nat) : Ram :=
  ⟨fun i => if i = address % 65536 then data % 256 else r.memory i⟩

/-- The for-loop body of `Ram::load`, with `i` the running index
(`self.write(offset + i as Address, byte)`). -/
def Ram.loadFrom (r : Ram) (data : List Nat) (offset : Nat) (i : Nat) : Ram :=
  match data with
  | [] => r
  | b :: rest => (r.write ((offset + i % 65536) % 65536) b).loadFrom rest offset (i + 1)

/-- `Ram::load`: copy `data` into memory starting at `offset`; each index
computation wraps as the `u16` arithmetic does. -/
def Ram.load (r : Ram) (data : List Nat) (offset : Nat) : Ram :=
  r.loadFrom data offset 0

/-- `cpu/register.rs`: the register file. -/
structure Registers where
  a : Nat
  x : Nat
  y : Nat
  sp : Nat
  pc : Nat
  status : Nat
deriving DecidableEq

/-- `cpu/cpu_6502.rs`: `ExecutionState`. -/
inductive ExecutionState where
  | Running | Stopped | Error
deriving DecidableEq

/-- `cpu/cpu_6502.rs`: the processor = register file + memory. -/
structure Cpu6502 where
  registers : Registers
  memory : Ram

/-- `Cpu6502::read_byte`: increments PC, then returns the byte at `address`. -/
def Cpu6502.read_byte (c : Cpu6502) (address : Nat) : Nat × Cpu6502 :=
  let c' := { c with registers := { c.registers with pc := wadd16 c.registers.pc 1 } }
  (c'.memory.read address, c')

/-- `Cpu6502::read_word`: little-endian 16-bit read via two `read_byte`s. -/
def Cpu6502.read_word (c : Cpu6502) (address : Nat) : Nat × Cpu6502 :=
  let (low, c1) := c.read_byte address
  let (high, c2) := c1.read_byte (wadd16 address 1)
  (low ||| (high <<< 8), c2)

/-- `Cpu6502::write_byte`: increments PC, then writes the byte. -/
def Cpu6502.write_byte (c : Cpu6502) (address : Nat) (data : Nat) : Cpu6502 :=
  let c' := { c with registers := { c.registers with pc := wadd16 c.registers.pc 1 } }
  { c' with memory := c'.memory.write address data }

/-- `Cpu6502::set_flag`. -/
def Cpu6502.set_flag (c : Cpu6502) (flag : Flag) (value : Bool) : Cpu6502 :=
  if value then
    { c with registers := { c.registers with status := c.registers.status ||| flag.toByte } }
  else
    { c with registers := { c.registers with status := c.registers.status &&& (255 ^^^ flag.toByte) } }

/-- `Cpu6502::get_flag`. -/
def Cpu6502.get_flag (c : Cpu6502) (flag : Flag) : Bool :=
  c.registers.status &&& flag.toByte != 0

/-- `Cpu6502::push_stack`: write at `STACK_SIZE + sp`, then decrement `sp`. -/
def Cpu6502.push_stack (c : Cpu6502) (data : Nat) : Cpu6502 :=
  let c' := { c with memory := c.memory.write (STACK_SIZE + c.registers.sp) data }
  { c' with registers := { c'.registers with sp := wsub8 c'.registers.sp 1 } }

/-- `Cpu6502::pop_stack`: increment `sp`, then read at `STACK_SIZE + sp`. -/
def Cpu6502.pop_stack (c : Cpu6502) : Nat × Cpu6502 :=
  let c' := { c with registers := { c.registers with sp := wadd8 c.registers.sp 1 } }
  (c'.memory.read (STACK_SIZE + c'.registers.sp), c')

/-- `Cpu6502::push_word_stack`: push high byte first, low byte second. -/
def Cpu6502.push_word_stack (c : Cpu6502) (data : Nat) : Cpu6502 :=
  (c.push_stack ((data >>> 8) % 256)).push_stack (data % 256)

/-- `Cpu6502::pop_word_stack`: pop low byte first, high byte second. -/
def Cpu6502.pop_word_stack (c : Cpu6502) : Nat × Cpu6502 :=
  let (low, c1) := c.pop_stack
  let (high, c2) := c1.pop_stack
  (low ||| (high <<< 8), c2)

/-- `cpu/addressing_mode.rs`: the addressing modes. -/
inductive AddressingMode where
  | Implied | Immediate | ZeroPage | ZeroPageX | ZeroPageY
  | Absolute | AbsoluteX | AbsoluteY
  | Indirect | IndirectX | IndirectY
  | Relative | Accumulator
deriving DecidableEq

/-- `AddressingMode::get_address`: resolves the effective operand address,
advancing PC over each consumed byte exactly as the Rust method does
(`!0xFF` on `u16` is `0xFF00`). -/
def AddressingMode.get_address (mode : AddressingMode) (cpu : Cpu6502) : Nat × Cpu6502 :=
  match mode with
  | .Implied => (0, cpu)
  | .Immediate =>
      let c' := { cpu with registers := { cpu.registers with pc := wadd16 cpu.registers.pc 1 } }
      (c'.registers.pc, c')
  | .ZeroPage => cpu.read_byte (wadd16 cpu.registers.pc 1)
  | .ZeroPageX =>
      let (v, c1) := cpu.read_byte (wadd16 cpu.registers.pc 1)
      ((wadd8 v c1.registers.x) &&& 0xFF, c1)
  | .ZeroPageY =>
      let (v, c1) := cpu.read_byte (wadd16 cpu.registers.pc 1)
      ((wadd8 v c1.registers.y) &&& 0xFF, c1)
  | .Absolute => cpu.read_word (wadd16 cpu.registers.pc 1)
  | .AbsoluteX =>
      let (w, c1) := cpu.read_word (wadd16 cpu.registers.pc 1)
      (wadd16 w c1.registers.x, c1)
  | .AbsoluteY =>
      let (w, c1) := cpu.read_word (wadd16 cpu.registers.pc 1)
      (wadd16 w c1.registers.y, c1)
  | .Indirect =>
      let (address, c1) := cpu.read_word (wadd16 cpu.registers.pc 1)
      let (low_byte, c2) := c1.read_byte address
      if address &&& 0xFF = 0xFF then
        let (high_byte, c3) := c2.read_byte (address &&& 0xFF00)
        (low_byte ||| (high_byte <<< 8), c3)
      else
        let (high_byte, c3) := c2.read_byte (wadd16 address 1)
        (low_byte ||| (high_byte <<< 8), c3)
  | .IndirectX =>
      let (v, c1) := cpu.read_byte (wadd16 cpu.registers.pc 1)
      c1.read_word (wadd8 v c1.registers.x)
  | .IndirectY =>
      let (v, c1) := cpu.read_byte (wadd16 cpu.registers.pc 1)
      let (w, c2) := c1.read_word v
      (wadd16 w c2.registers.y, c2)
  | .Relative => cpu.read_byte (wadd16 cpu.registers.pc 1)
  | .Accumulator => (cpu.registers.a, cpu)

/-!  `cpu/function.rs`: the instruction handlers the claims refer to.  Each
Rust handler `fn f(cpu: &mut Cpu6502, mode: AddressingMode)` becomes
`Fn.f : Cpu6502 → AddressingMode → Cpu6502`. -/

namespace Fn

/-- `function.rs` `adc`: add with carry. -/
def adc (cpu : Cpu6502) (mode : AddressingMode) : Cpu6502 :=
  let (address, c1) := mode.get_address cpu
  let (value, c2) := c1.read_byte address
  let carry : Nat := if c2.get_flag Flag.Carry then 1 else 0
  let result := wadd8 (wadd8 c2.registers.a value) carry
  let c3 := c2.set_flag Flag.Carry (decide (result < c2.registers.a ∨ result < value))
  let c4 := c3.set_flag Flag.Zero (result == 0)
  let c5 := c4.set_flag Flag.Negative (result &&& 0x80 != 0)
  let c6 := c5.set_flag Flag.Overflow ((c5.registers.a ^^^ result) &&& (value ^^^ result) &&& 0x80 != 0)
  { c6 with registers := { c6.registers with a := result } }

/-- `function.rs` `brk`: software interrupt. -/
def brk (cpu : Cpu6502) (_mode : AddressingMode) : Cpu6502 :=
  let c1 := cpu.push_word_stack cpu.registers.pc
  let c2 := c1.push_stack (c1.registers.status ||| Flag.Break.toByte)
  let c3 := c2.set_flag Flag.Interrupt true
  let (w, c4) := c3.read_word 0xFFFE
  { c4 with registers := { c4.registers with pc := w } }

/-- `function.rs` `cmp`: compare accumulator with memory. -/
def cmp (cpu : Cpu6502) (mode : AddressingMode) : Cpu6502 :=
  let (address, c1) := mode.get_address cpu
  let (value, c2) := c1.read_byte address
  let result := wsub8 c2.registers.a value
  let c3 := c2.set_flag Flag.Carry (decide (c2.registers.a ≥ value))
  let c4 := c3.set_flag Flag.Zero (result == 0)
  c4.set_flag Flag.Negative (result &&& 0x80 != 0)

/-- `function.rs` `sbc`: subtract with carry. -/
def sbc (cpu : Cpu6502) (mode : AddressingMode) : Cpu6502 :=
  let (address, c1) := mode.get_address cpu
  let (value, c2) := c1.read_byte address
  let carry : Bool := c2.registers.status &&& Flag.Carry.toByte != 0
  let result := wsub8 (wsub8 c2.registers.a value) (if carry then 0 else 1)
  let c3 := c2.set_flag Flag.Carry (decide (result ≤ c2.registers.a))
  let c4 := c3.set_flag Flag.Zero (result == 0)
  let c5 := c4.set_flag Flag.Negative (result &&& 0x80 != 0)
  let c6 := c5.set_flag Flag.Overflow ((c5.registers.a ^^^ result) &&& (value ^^^ result) &&& 0x80 != 0)
  let c7 := { c6 with registers := { c6.registers with a := result } }
  { c7 with registers := { c7.registers with pc := wadd16 c7.registers.pc 1 } }

/-- `function.rs` `ora`: bitwise or with accumulator. -/
def ora (cpu : Cpu6502) (mode : AddressingMode) : Cpu6502 :=
  let (address, c1) := mode.get_address cpu
  let (value, c2) := c1.read_byte address
  let c3 := { c2 with registers := { c2.registers with a := c2.registers.a ||| value } }
  let c4 := c3.set_flag Flag.Zero (c3.registers.a == 0)
  c4.set_flag Flag.Negative (c3.registers.a &&& 0x80 != 0)

/-- `function.rs` `bcc`: branch on carry clear. -/
def bcc (cpu : Cpu6502) (mode : AddressingMode) : Cpu6502 :=
  let (address, c1) := mode.get_address cpu
  let carry : Bool := c1.registers.status &&& Flag.Carry.toByte != 0
  if !carry then
    { c1 with registers := { c1.registers with pc := address } }
  else
    { c1 with registers := { c1.registers with pc := wadd16 c1.registers.pc 1 } }

/-- `function.rs` `nop`: advance PC by one. -/
def nop (cpu : Cpu6502) (_mode : AddressingMode) : Cpu6502 :=
  { cpu with registers := { cpu.registers with pc := wadd16 cpu.registers.pc 1 } }

/-- `function.rs` `and`: bitwise and with accumulator (note the trailing
PC increment present in the source). -/
def and (cpu : Cpu6502) (mode : AddressingMode) : Cpu6502 :=
  let (address, c1) := mode.get_address cpu
  let (value, c2) := c1.read_byte address
  let a := c2.registers.a
  let result := a &&& value
  let c3 := { c2 with registers := { c2.registers with a := result } }
  let c4 := c3.set_flag Flag.Zero (result == 0)
  let c5 := c4.set_flag Flag.Negative (result &&& 0x80 != 0)
  { c5 with registers := { c5.registers with pc := wadd16 c5.registers.pc 1 } }

/-- `function.rs` `kil`: the dedicated halt opcode's handler. -/
def kil (cpu : Cpu6502) (_mode : AddressingMode) : Cpu6502 :=
  { cpu with registers := { cpu.registers with pc := wadd16 cpu.registers.pc 1 } }

end Fn

/-- `cpu/instruction.rs` (table entry shape, as used by
`Cpu6502::execute_instruction` and by `src/test.rs`): a descriptor with a
mnemonic, an addressing mode and a handler. -/
structure Instruction where
  name : String
  addressing_mode : AddressingMode
  execute : Cpu6502 → AddressingMode → Cpu6502

/-- `Cpu6502::execute_instruction`.  The global table `INSTRUCTIONS` lives in
`cpu/instruction.rs`, which is declared in `cpu/mod.rs` but absent from the
sources, so the table is passed as an explicit parameter; everything else is
the method's control flow verbatim: bounds check on PC, table lookup of the
opcode at PC, handler dispatch, and the KIL/BRK stop test. -/
def Cpu6502.execute_instruction (c : Cpu6502) (instructions : List Instruction) :
    Option ExecutionState × Cpu6502 :=
  if c.registers.pc ≥ MEMORY_SIZE then (some .Error, c)
  else
    let opcode := c.memory.read c.registers.pc
    match instructions.get? opcode with
    | none => (some .Error, c)
    | some instruction =>
      let c' := instruction.execute c instruction.addressing_mode
      if instruction.name = OPCODE_KIL ∨ instruction.name = "BRK" then (some .Stopped, c')
      else (some .Running, c')

/-- Modelled from the spec: the instruction table.  `cpu/mod.rs` declares
`pub mod instruction` but `src/src/cpu/instruction.rs` is not among the
sources; the spec fixes a total 256-entry opcode→descriptor map targeting
the standard 6502 instruction set.  This fragment gives the first three
standard entries (opcode 0x00 = BRK implied, 0x01 = ORA indirect-X,
0x02 = KIL), enough to run the execution engine on concrete programs. -/
def INSTRUCTIONS_model : List Instruction :=
  [ { name := "BRK", addressing_mode := .Implied, execute := Fn.brk },
    { name := "ORA", addressing_mode := .IndirectX, execute := Fn.ora },
    { name := "KIL", addressing_mode := .Implied, execute := Fn.kil } ]

/-! Concrete fixtures used by the theorems below. -/

/-- All-zero memory. -/
def ram0 : Ram := ⟨fun _ => 0⟩

/-- A freshly reset processor: registers zero, `sp = 0xFF`, zero memory. -/
def zeroCpu : Cpu6502 := ⟨⟨0, 0, 0, 0xFF, 0, 0⟩, ram0⟩

/-- Processor about to execute a software interrupt: PC = 0x1002,
SP = 0xFF, status = 0xC3, interrupt vector bytes (0x10, 0x10). -/
def brkCexCpu : Cpu6502 :=
  ⟨⟨0, 0, 0, 0xFF, 0x1002, 0xC3⟩,
   ⟨fun a => if a = 0xFFFE then 0x10 else if a = 0xFFFF then 0x10 else 0⟩⟩

/-- The spec's software-interrupt example: PC = 0x1000, SP = 0xFF,
status = 0xFF, interrupt vector bytes (0x10, 0x10). -/
def brkExampleCpu : Cpu6502 :=
  ⟨⟨0, 0, 0, 0xFF, 0x1000, 0xFF⟩,
   ⟨fun a => if a = 0xFFFE then 0x10 else if a = 0xFFFF then 0x10 else 0⟩⟩

/-- Processor whose memory holds the indirect pointer 0x10FF at PC+1,
with distinct bytes at 0x10FF, 0x1000 and 0x1100 to discriminate the
page-bug behaviour. -/
def indirectCpu : Cpu6502 :=
  ⟨⟨0, 0, 0, 0xFF, 0, 0⟩,
   ⟨fun a =>
      if a = 1 then 0xFF else if a = 2 then 0x10
      else if a = 0x10FF then 0x34 else if a = 0x1000 then 0x12
      else if a = 0x1100 then 0x99 else 0⟩⟩

/-!  Theorems about the claims. -/

/-- Claim C1 (code bug): the spec demands that every handler leave PC at the
first byte of the next instruction (for AND immediate, PC+2), but the `and`
handler ends with an extra PC increment: executed at PC = 0 in immediate
mode it leaves PC = 3, one past the two-byte instruction, while the
single-byte `nop` does advance PC by exactly 1 leaving registers, flags and
memory unchanged. -/
theorem and_immediate_pc_overshoot :
    (Fn.and ⟨⟨0xCA, 0, 0, 0xFF, 0, 0⟩, ⟨fun _ => 0xAD⟩⟩ AddressingMode.Immediate).registers.pc = 3
    ∧ (3 : Nat) ≠ (0 + 2) % 65536
    ∧ (Fn.nop zeroCpu AddressingMode.Implied).registers =
        { zeroCpu.registers with pc := 1 }
    ∧ (∀ b, b < 65536 → (Fn.nop zeroCpu AddressingMode.Implied).memory.read b = zeroCpu.memory.read b) := by
  refine ⟨by decide, by decide, by decide, ?_⟩
  intro b _
  rfl

/-- Claim C2 (code bug): `adc` is supposed to set Carry iff the unsigned sum
exceeds 255, but its `result < a || result < value` test misses
A = 0xFF, M = 0xFF, carry-in = 1: the sum 511 exceeds 255 yet the handler
leaves Carry clear (the result byte 0xFF is correct). -/
theorem adc_carry_flag_missed :
    (Fn.adc ⟨⟨0xFF, 0, 0, 0xFF, 0, 0x01⟩, ⟨fun _ => 0xFF⟩⟩ AddressingMode.Immediate).get_flag Flag.Carry = false
    ∧ (Fn.adc ⟨⟨0xFF, 0, 0, 0xFF, 0, 0x01⟩, ⟨fun _ => 0xFF⟩⟩ AddressingMode.Immediate).registers.a = (0xFF + 0xFF + 1) % 256
    ∧ 0xFF + 0xFF + 1 > 255 := by
  decide

/-- Claim C3 (code bug): a taken branch is supposed to land at
p + 2 + sign_extend(d), but `bcc` (via the Relative resolver, which returns
the raw operand byte) jumps to the zero-extended operand as an absolute
address: at PC = 0x1000 with operand 0x10 and Carry clear it sets
PC = 0x0010 instead of 0x1012; the untaken path does land at p + 2. -/
theorem bcc_taken_ignores_displacement :
    (Fn.bcc ⟨⟨0, 0, 0, 0xFF, 0x1000, 0⟩, ⟨fun a => if a = 0x1001 then 0x10 else 0⟩⟩ AddressingMode.Relative).registers.pc = 0x10
    ∧ (0x10 : Nat) ≠ (0x1000 + 2 + 0x10) % 65536
    ∧ (Fn.bcc ⟨⟨0, 0, 0, 0xFF, 0x1000, 0x01⟩, ⟨fun a => if a = 0x1001 then 0x10 else 0⟩⟩ AddressingMode.Relative).registers.pc = (0x1000 + 2) % 65536 := by
  decide

/-- Claim C6 (code bug): `sbc` is supposed to set Carry iff no borrow
occurred (A ≥ M + (1 − carry-in)), but its `result <= a` test is wrong when
M = 0xFF and carry-in = 0: with A = 0 the subtraction wraps (borrow), yet
the handler sets Carry; `cmp`'s carry (A ≥ M with carry-in fixed at 1) is
computed correctly. -/
theorem sbc_carry_flag_spurious :
    (Fn.sbc ⟨⟨0x00, 0, 0, 0xFF, 0, 0x00⟩, ⟨fun _ => 0xFF⟩⟩ AddressingMode.Immediate).get_flag Flag.Carry = true
    ∧ ¬ (0x00 + 0xFF + (1 - 0) ≤ 0xFF)
    ∧ (Fn.sbc ⟨⟨0x00, 0, 0, 0xFF, 0, 0x00⟩, ⟨fun _ => 0xFF⟩⟩ AddressingMode.Immediate).registers.a = (0x00 + 65536 - (0xFF + 1)) % 256 := by
  decide

/-- Claim C4 (counterexample): the claim says Stopped is returned iff the
executed instruction is the dedicated halt opcode, but executing the
software interrupt BRK — whose mnemonic differs from `OPCODE_KIL` — also
yields Stopped. -/
theorem execute_brk_reports_stopped :
    (zeroCpu.execute_instruction INSTRUCTIONS_model).1 = some ExecutionState.Stopped
    ∧ (INSTRUCTIONS_model.get? 0).map Instruction.name = some "BRK"
    ∧ "BRK" ≠ OPCODE_KIL := by
  refine ⟨rfl, rfl, by decide⟩

/-- Claim C5 (counterexample): the claim says `read_byte` leaves the entire
state unchanged, but it increments the program counter: from PC = 0 a read
leaves PC = 1. -/
theorem read_byte_advances_pc :
    ((zeroCpu.read_byte 5).2.registers.pc = 1) ∧ (1 : Nat) ≠ zeroCpu.registers.pc := by
  decide

/-- Claim C8 (counterexample): the claim lists the push order as low byte,
high byte, status, but `brk` pushes the PC's high byte first: from
PC = 0x1002 with SP = 0xFF the byte written at 0x01FF (the first push) is
the high byte 0x10 and the byte at 0x01FE is the low byte 0x02 — not the
other way round — and the third byte is the status with Break forced set
(0xC3 | 0x10 = 0xD3), not the unmodified status. -/
theorem brk_pushes_high_byte_first :
    (Fn.brk brkCexCpu AddressingMode.Implied).memory.read 0x01FF = 0x10
    ∧ (Fn.brk brkCexCpu AddressingMode.Implied).memory.read 0x01FE = 0x02
    ∧ (Fn.brk brkCexCpu AddressingMode.Implied).memory.read 0x01FD = 0xD3
    ∧ (0x10 : Nat) ≠ 0x02
    ∧ (0xD3 : Nat) ≠ brkCexCpu.registers.status := by
  decide

/-- Claim C5 (amended): for every state and address, `read_byte` returns the
byte stored at the address and leaves every register, every flag and every
memory cell unchanged — except the program counter, which it increments by
one (mod 65536). -/
theorem read_byte_frame (c : Cpu6502) (address : Nat) :
    (c.read_byte address).1 = c.memory.read address
    ∧ (c.read_byte address).2.registers.pc = (c.registers.pc + 1) % 65536
    ∧ (c.read_byte address).2.registers.a = c.registers.a
    ∧ (c.read_byte address).2.registers.x = c.registers.x
    ∧ (c.read_byte address).2.registers.y = c.registers.y
    ∧ (c.read_byte address).2.registers.sp = c.registers.sp
    ∧ (c.read_byte address).2.registers.status = c.registers.status
    ∧ ∀ b, (c.read_byte address).2.memory.read b = c.memory.read b := by
  refine ⟨rfl, rfl, rfl, rfl, rfl, rfl, rfl, fun b => rfl⟩

/-- Claim C7 (confirmed): indirect addressing resolves the effective address
as the little-endian word at the two-byte pointer p (itself read
little-endian at PC+1), except that when p's low byte is 0xFF the high byte
of the target comes from p AND 0xFF00 instead of p+1; in particular a
pointer at 0x10FF takes its high byte from 0x1000, not 0x1100. -/
theorem indirect_resolution_page_bug (c : Cpu6502) :
    ((AddressingMode.Indirect.get_address c).1 =
      c.memory.read (c.memory.read (wadd16 c.registers.pc 1) |||
          (c.memory.read (wadd16 (wadd16 c.registers.pc 1) 1) <<< 8)) |||
        (c.memory.read
          (if (c.memory.read (wadd16 c.registers.pc 1) |||
                (c.memory.read (wadd16 (wadd16 c.registers.pc 1) 1) <<< 8)) &&& 0xFF = 0xFF
           then (c.memory.read (wadd16 c.registers.pc 1) |||
                (c.memory.read (wadd16 (wadd16 c.registers.pc 1) 1) <<< 8)) &&& 0xFF00
           else wadd16 (c.memory.read (wadd16 c.registers.pc 1) |||
                (c.memory.read (wadd16 (wadd16 c.registers.pc 1) 1) <<< 8)) 1) <<< 8))
    ∧ (AddressingMode.Indirect.get_address indirectCpu).1 = 0x1234
    ∧ (AddressingMode.Indirect.get_address indirectCpu).1 ≠
        (indirectCpu.memory.read 0x10FF ||| (indirectCpu.memory.read 0x1100 <<< 8)) := by
  refine ⟨?_, by decide, by decide⟩
  show (AddressingMode.get_address AddressingMode.Indirect c).1 = _
  simp only [AddressingMode.get_address, Cpu6502.read_word, Cpu6502.read_byte]
  split
  · rfl
  · rfl

/-- Claim C4 (amended): every step yields exactly one of Running, Stopped or
Error: Error iff the program counter lies outside the addressable space or
the fetched opcode has no descriptor in the table; Stopped iff a descriptor
was found and its mnemonic is the dedicated halt opcode KIL or the software
interrupt BRK; Running otherwise.  Both error conditions are ordinary
return values of the (total) step function. -/
theorem execute_instruction_classification (c : Cpu6502) (tbl : List Instruction) :
    (((c.execute_instruction tbl).1 = some ExecutionState.Error) ↔
      (MEMORY_SIZE ≤ c.registers.pc ∨ tbl.get? (c.memory.read c.registers.pc) = none))
    ∧ (((c.execute_instruction tbl).1 = some ExecutionState.Stopped) ↔
      (c.registers.pc < MEMORY_SIZE ∧
        ∃ i, tbl.get? (c.memory.read c.registers.pc) = some i ∧
          (i.name = OPCODE_KIL ∨ i.name = "BRK")))
    ∧ (((c.execute_instruction tbl).1 = some ExecutionState.Running) ↔
      (c.registers.pc < MEMORY_SIZE ∧
        ∃ i, tbl.get? (c.memory.read c.registers.pc) = some i ∧
          ¬ (i.name = OPCODE_KIL ∨ i.name = "BRK"))) := by
  unfold Cpu6502.execute_instruction
  by_cases h : c.registers.pc ≥ MEMORY_SIZE
  · rw [if_pos h]
    refine ⟨⟨fun _ => Or.inl h, fun _ => rfl⟩, ?_, ?_⟩
    · constructor
      · intro he
        exact ExecutionState.noConfusion (Option.some.inj he)
      · rintro ⟨hlt, -⟩
        exact absurd hlt (Nat.not_lt.mpr h)
    · constructor
      · intro he
        exact ExecutionState.noConfusion (Option.some.inj he)
      · rintro ⟨hlt, -⟩
        exact absurd hlt (Nat.not_lt.mpr h)
  · rw [if_neg h]
    cases htbl : tbl.get? (c.memory.read c.registers.pc) with
    | none =>
        simp only [htbl]
        refine ⟨⟨fun _ => Or.inr trivial, fun _ => trivial⟩, ?_, ?_⟩
        · constructor
          · intro he
            exact ExecutionState.noConfusion (Option.some.inj he)
          · rintro ⟨-, i, hi, -⟩
            exact Option.noConfusion hi
        · constructor
          · intro he
            exact ExecutionState.noConfusion (Option.some.inj he)
          · rintro ⟨-, i, hi, -⟩
            exact Option.noConfusion hi
    | some i =>
        simp only [htbl]
        by_cases hn : (i.name = OPCODE_KIL ∨ i.name = "BRK")
        · rw [if_pos hn]
          refine ⟨?_, ?_, ?_⟩
          · constructor
            · intro he
              exact ExecutionState.noConfusion (Option.some.inj he)
            · rintro (hge | hnone)
              · exact absurd hge (Nat.not_le.mpr (Nat.lt_of_not_le h))
              · exact Option.noConfusion hnone
          · exact ⟨fun _ => ⟨Nat.lt_of_not_le h, i, rfl, hn⟩, fun _ => rfl⟩
          · constructor
            · intro he
              exact ExecutionState.noConfusion (Option.some.inj he)
            · rintro ⟨-, j, hj, hjn⟩
              cases Option.some.inj hj
              exact absurd hn hjn
        · rw [if_neg hn]
          refine ⟨?_, ?_, ?_⟩
          · constructor
            · intro he
              exact ExecutionState.noConfusion (Option.some.inj he)
            · rintro (hge | hnone)
              · exact absurd hge (Nat.not_le.mpr (Nat.lt_of_not_le h))
              · exact Option.noConfusion hnone
          · constructor
            · intro he
              exact ExecutionState.noConfusion (Option.some.inj he)
            · rintro ⟨-, j, hj, hjn⟩
              cases Option.some.inj hj
              exact absurd hjn hn
          · exact ⟨fun _ => ⟨Nat.lt_of_not_le h, i, rfl, hn⟩, fun _ => rfl⟩

/-- Recomposing a 16-bit value from its low byte and shifted high byte. -/
lemma recompose_word (w : Nat) : (w % 256) ||| ((w >>> 8) <<< 8) = w := by
  apply Nat.eq_of_testBit_eq
  intro i
  rw [Nat.testBit_lor, Nat.testBit_shiftLeft, Nat.testBit_shiftRight]
  rcases Nat.lt_or_ge i 8 with hi | hi
  · have h1 : (w % 256).testBit i = w.testBit i := by
      have h : (256 : Nat) = 2 ^ 8 := by norm_num
      rw [h, Nat.testBit_mod_two_pow, decide_eq_true hi, Bool.true_and]
    simp [h1, Nat.not_le.mpr hi]
  · have h1 : (w % 256).testBit i = false := by
      have h : (256 : Nat) = 2 ^ 8 := by norm_num
      rw [h, Nat.testBit_mod_two_pow, decide_eq_false (by omega), Bool.false_and]
    have h2 : 8 + (i - 8) = i := by omega
    simp [h1, Nat.le_of_lt, decide_eq_true hi, h2]

set_option maxHeartbeats 2000000 in
/-- Claim C9 (confirmed): for every 16-bit value and every starting stack
pointer, pushing the value with `push_word_stack` (high byte first, low
byte second, each push writing at `STACK_SIZE + sp` then decrementing `sp`
with wraparound) and then popping with `pop_word_stack` (low then high)
returns exactly the pushed value, and the stack pointer returns to its
original value. -/
theorem push_pop_word_roundtrip (c : Cpu6502) (w : Nat)
    (hw : w < 65536) (hsp : c.registers.sp < 256) :
    ((c.push_word_stack w).pop_word_stack).1 = w
    ∧ ((c.push_word_stack w).pop_word_stack).2.registers.sp = c.registers.sp := by
  have e2 : (w >>> 8) = w / 256 := by
    rw [Nat.shiftRight_eq_div_pow]
  simp only [Cpu6502.push_word_stack, Cpu6502.pop_word_stack, Cpu6502.push_stack,
    Cpu6502.pop_stack, Ram.read, Ram.write, wadd8, wsub8, wadd16, STACK_SIZE]
  constructor
  · have e1 : w % 256 % 256 % 256 = w % 256 := by omega
    have e3 : (w >>> 8) % 256 % 256 % 256 = w >>> 8 := by
      rw [e2]
      omega
    split_ifs <;> try omega
    all_goals rw [e1, e3, recompose_word]
  · omega

/-- Claim C9 witness: round trip of 0x1234 from a fresh processor with
SP = 0xFF. -/
theorem push_pop_word_roundtrip_witness :
    (0x1234 : Nat) < 65536 ∧ zeroCpu.registers.sp < 256 ∧
    (((zeroCpu.push_word_stack 0x1234).pop_word_stack).1 = 0x1234
      ∧ ((zeroCpu.push_word_stack 0x1234).pop_word_stack).2.registers.sp = zeroCpu.registers.sp) :=
  ⟨by decide, by decide, push_pop_word_roundtrip zeroCpu 0x1234 (by decide) (by decide)⟩

/-- Reading back the cell a write targeted yields the written byte. -/
lemma Ram.read_write_self (r : Ram) (aw ar d : Nat) (h : ar % 65536 = aw % 65536) :
    (r.write aw d).read ar = d % 256 := by
  simp only [Ram.read, Ram.write]
  rw [if_pos (by omega), Nat.mod_mod_of_dvd]
  exact Nat.dvd_refl 256

/-- Reading any other cell is unaffected by a write. -/
lemma Ram.read_write_other (r : Ram) (aw ar d : Nat) (h : ar % 65536 ≠ aw % 65536) :
    (r.write aw d).read ar = r.read ar := by
  simp only [Ram.read, Ram.write]
  rw [if_neg (by omega)]

/-- Cells outside the window a `loadFrom` writes keep their old contents. -/
lemma loadFrom_read_frame (data : List Nat) (r : Ram) (offset s a : Nat)
    (h : ∀ j, j < data.length → (offset + (s + j) % 65536) % 65536 ≠ a % 65536) :
    (r.loadFrom data offset s).read a = r.read a := by
  induction data generalizing r s with
  | nil => rfl
  | cons b rest ih =>
      show ((r.write ((offset + s % 65536) % 65536) b).loadFrom rest offset (s + 1)).read a
          = r.read a
      rw [ih _ (s + 1) ?_]
      · refine Ram.read_write_other _ _ _ _ ?_
        have h0 := h 0 (Nat.succ_pos rest.length)
        omega
      · intro j hj
        have hj1 := h (j + 1) (by simpa using Nat.succ_lt_succ hj)
        omega

/-- After `loadFrom`, the cell targeted for element `i` holds that element
(mod 256), provided the window fits in the address space. -/
lemma loadFrom_read_at (data : List Nat) (r : Ram) (offset s i : Nat)
    (hi : i < data.length) (hlen : data.length ≤ 65536) :
    (r.loadFrom data offset s).read ((offset + (s + i) % 65536) % 65536)
      = (data.get ⟨i, hi⟩) % 256 := by
  induction data generalizing r s i with
  | nil => cases hi
  | cons b rest ih =>
      have hl : rest.length + 1 ≤ 65536 := by simpa using hlen
      cases i with
      | zero =>
          show ((r.write ((offset + s % 65536) % 65536) b).loadFrom rest offset (s + 1)).read
              ((offset + (s + 0) % 65536) % 65536) = b % 256
          rw [loadFrom_read_frame rest _ offset (s + 1) _ ?_]
          · exact Ram.read_write_self _ _ _ _ (by omega)
          · intro j hj
            omega
      | succ n =>
          have hn : n < rest.length := by simpa using Nat.lt_of_succ_lt_succ hi
          have ha : s + (n + 1) = (s + 1) + n := by omega
          show ((r.write ((offset + s % 65536) % 65536) b).loadFrom rest offset (s + 1)).read
              ((offset + (s + (n + 1)) % 65536) % 65536) = ((b :: rest).get ⟨n + 1, hi⟩) % 256
          rw [ha, ih _ (s + 1) n hn (by omega)]
          rfl

/-- Claim C10 (confirmed): `load` is total and copies byte `i` of the
sequence to address `(offset + i) mod 65536`, silently wrapping around to
the start of the address space when the copy passes the end of the 64KB
store (the sequence is assumed to fit in the address space — the spec
leaves overlapping self-clobber to the caller — and to consist of bytes,
as `u8` guarantees in the source). -/
theorem ram_load_wraps (r : Ram) (data : List Nat) (offset i : Nat)
    (hi : i < data.length) (hlen : data.length ≤ 65536)
    (hb : ∀ b ∈ data, b < 256) :
    (r.load data offset).read ((offset + i) % 65536) = data.get ⟨i, hi⟩ := by
  have h := loadFrom_read_at data r offset 0 i hi hlen
  have ha : (offset + (0 + i) % 65536) % 65536 = (offset + i) % 65536 := by omega
  rw [ha] at h
  rw [Ram.load] at *
  rw [h]
  exact Nat.mod_eq_of_lt (hb _ (data.get_mem _ _))

/-- Claim C10 witness: loading two bytes at offset 0xFFFF places the second
byte at address 0x0000, wrapping silently. -/
theorem ram_load_wraps_witness :
    (1 : Nat) < ([0xAA, 0xBB] : List Nat).length
    ∧ ([0xAA, 0xBB] : List Nat).length ≤ 65536
    ∧ (∀ b ∈ ([0xAA, 0xBB] : List Nat), b < 256)
    ∧ (ram0.load [0xAA, 0xBB] 0xFFFF).read ((0xFFFF + 1) % 65536)
        = ([0xAA, 0xBB] : List Nat).get ⟨1, by decide⟩ :=
  ⟨by decide, by decide, by decide,
    ram_load_wraps ram0 [0xAA, 0xBB] 0xFFFF 1 (by decide) (by decide) (by decide)⟩

/-- Setting a flag to `true` ors its mask into the status byte. -/
lemma set_flag_true (c : Cpu6502) (f : Flag) :
    c.set_flag f true
      = { c with registers := { c.registers with status := c.registers.status ||| f.toByte } } :=
  rfl

set_option maxHeartbeats 2000000 in
set_option maxRecDepth 8000 in
/-- Claim C8 (amended): the software interrupt pushes the PC's high byte
(at stack cell 0x100+sp), then the PC's low byte, then the status with the
Break bit forced set; it sets the Interrupt-disable bit in the status
register, decrements the stack pointer by three (with wraparound), loads
PC from the little-endian word at 0xFFFE/0xFFFF, and leaves the other
registers and all other memory cells unchanged. -/
theorem brk_effects (c : Cpu6502) (hsp : c.registers.sp < 256)
    (hpc : c.registers.pc < 65536) (hst : c.registers.status < 256) :
    (Fn.brk c AddressingMode.Implied).memory.read (0x100 + c.registers.sp)
        = c.registers.pc >>> 8
    ∧ (Fn.brk c AddressingMode.Implied).memory.read (0x100 + (c.registers.sp + 255) % 256)
        = c.registers.pc % 256
    ∧ (Fn.brk c AddressingMode.Implied).memory.read (0x100 + (c.registers.sp + 254) % 256)
        = c.registers.status ||| 0x10
    ∧ (Fn.brk c AddressingMode.Implied).registers.pc
        = c.memory.read 0xFFFE ||| (c.memory.read 0xFFFF <<< 8)
    ∧ (Fn.brk c AddressingMode.Implied).registers.status = c.registers.status ||| 0x04
    ∧ (Fn.brk c AddressingMode.Implied).registers.sp = (c.registers.sp + 253) % 256
    ∧ (Fn.brk c AddressingMode.Implied).registers.a = c.registers.a
    ∧ (Fn.brk c AddressingMode.Implied).registers.x = c.registers.x
    ∧ (Fn.brk c AddressingMode.Implied).registers.y = c.registers.y
    ∧ ∀ b, b < 65536 → b ≠ 0x100 + c.registers.sp
        → b ≠ 0x100 + (c.registers.sp + 255) % 256
        → b ≠ 0x100 + (c.registers.sp + 254) % 256
        → (Fn.brk c AddressingMode.Implied).memory.read b = c.memory.read b := by
  have hor : c.registers.status ||| 0x10 < 256 :=
    Nat.or_lt_two_pow (n := 8) hst (by norm_num)
  refine ⟨?_, ?_, ?_, ?_, ?_, ?_, ?_, ?_, ?_, ?_⟩
  · simp only [Fn.brk, Cpu6502.push_word_stack, Cpu6502.push_stack, set_flag_true,
      Cpu6502.read_word, Cpu6502.read_byte, Ram.read, Ram.write, Flag.toByte,
      wadd16, wsub8, wadd8, STACK_SIZE]
    split_ifs <;> omega
  · simp only [Fn.brk, Cpu6502.push_word_stack, Cpu6502.push_stack, set_flag_true,
      Cpu6502.read_word, Cpu6502.read_byte, Ram.read, Ram.write, Flag.toByte,
      wadd16, wsub8, wadd8, STACK_SIZE]
    split_ifs <;> omega
  · simp only [Fn.brk, Cpu6502.push_word_stack, Cpu6502.push_stack, set_flag_true,
      Cpu6502.read_word, Cpu6502.read_byte, Ram.read, Ram.write, Flag.toByte,
      wadd16, wsub8, wadd8, STACK_SIZE]
    split_ifs <;> omega
  · simp only [Fn.brk, Cpu6502.push_word_stack, Cpu6502.push_stack, set_flag_true,
      Cpu6502.read_word, Cpu6502.read_byte, Ram.read, Ram.write, Flag.toByte,
      wadd16, wsub8, wadd8, STACK_SIZE]
    split_ifs <;> first | rfl | omega
  · simp only [Fn.brk, Cpu6502.push_word_stack, Cpu6502.push_stack, set_flag_true,
      Cpu6502.read_word, Cpu6502.read_byte, Flag.toByte, wadd16, wsub8, wadd8, STACK_SIZE]
  · simp only [Fn.brk, Cpu6502.push_word_stack, Cpu6502.push_stack, set_flag_true,
      Cpu6502.read_word, Cpu6502.read_byte, Flag.toByte, wadd16, wsub8, wadd8, STACK_SIZE]
    omega
  · simp only [Fn.brk, Cpu6502.push_word_stack, Cpu6502.push_stack, set_flag_true,
      Cpu6502.read_word, Cpu6502.read_byte]
  · simp only [Fn.brk, Cpu6502.push_word_stack, Cpu6502.push_stack, set_flag_true,
      Cpu6502.read_word, Cpu6502.read_byte]
  · simp only [Fn.brk, Cpu6502.push_word_stack, Cpu6502.push_stack, set_flag_true,
      Cpu6502.read_word, Cpu6502.read_byte]
  · intro b hb h1 h2 h3
    simp only [Fn.brk, Cpu6502.push_word_stack, Cpu6502.push_stack, set_flag_true,
      Cpu6502.read_word, Cpu6502.read_byte, Ram.read, Ram.write, Flag.toByte,
      wadd16, wsub8, wadd8, STACK_SIZE]
    split_ifs <;> first | rfl | omega

/-- Claim C8 witness: the spec's example — status 0xFF, vector bytes
(0x10, 0x10), PC 0x1000, SP 0xFF — instantiating `brk_effects`. -/
theorem brk_effects_witness :
    brkExampleCpu.registers.sp < 256 ∧ brkExampleCpu.registers.pc < 65536
    ∧ brkExampleCpu.registers.status < 256
    ∧ ((Fn.brk brkExampleCpu AddressingMode.Implied).memory.read (0x100 + brkExampleCpu.registers.sp)
          = brkExampleCpu.registers.pc >>> 8
      ∧ (Fn.brk brkExampleCpu AddressingMode.Implied).memory.read (0x100 + (brkExampleCpu.registers.sp + 255) % 256)
          = brkExampleCpu.registers.pc % 256
      ∧ (Fn.brk brkExampleCpu AddressingMode.Implied).memory.read (0x100 + (brkExampleCpu.registers.sp + 254) % 256)
          = brkExampleCpu.registers.status ||| 0x10
      ∧ (Fn.brk brkExampleCpu AddressingMode.Implied).registers.pc
          = brkExampleCpu.memory.read 0xFFFE ||| (brkExampleCpu.memory.read 0xFFFF <<< 8)
      ∧ (Fn.brk brkExampleCpu AddressingMode.Implied).registers.status
          = brkExampleCpu.registers.status ||| 0x04
      ∧ (Fn.brk brkExampleCpu AddressingMode.Implied).registers.sp
          = (brkExampleCpu.registers.sp + 253) % 256
      ∧ (Fn.brk brkExampleCpu AddressingMode.Implied).registers.a = brkExampleCpu.registers.a
      ∧ (Fn.brk brkExampleCpu AddressingMode.Implied).registers.x = brkExampleCpu.registers.x
      ∧ (Fn.brk brkExampleCpu AddressingMode.Implied).registers.y = brkExampleCpu.registers.y
      ∧ ∀ b, b < 65536 → b ≠ 0x100 + brkExampleCpu.registers.sp
          → b ≠ 0x100 + (brkExampleCpu.registers.sp + 255) % 256
          → b ≠ 0x100 + (brkExampleCpu.registers.sp + 254) % 256
          → (Fn.brk brkExampleCpu AddressingMode.Implied).memory.read b
              = brkExampleCpu.memory.read b) :=
  ⟨by decide, by decide, by decide,
    brk_effects brkExampleCpu (by decide) (by decide) (by decide)⟩

end Emu6502